import Mathlib

/-!
Verification of the token protocol core of the `zod-jwt` repository.

The development shallowly embeds the TypeScript sources:
* `decodeJwt` (src/packages/core/src/util/decode-jwt/decode-jwt.ts),
* `constructPublicClaims` (claim builder),
* the time-based public-claim validation shared by `Jwt._validateTimeBasedPublicClaims`
  and `JwtAbstractProvider._validatePublicClaims`,
* `validateSecretMaterial` and the `LocalHsProvider` constructor,
* the `JwtAbstractProvider` `sign` / `verify` / `decode` pipelines.

JavaScript strings are modelled as `List Char`; machine numbers that hold
epoch milliseconds or seconds are modelled as `Int`, with `Math.floor(x / 1000)`
rendered as `Int.fdiv x 1000`.  External collaborators (JSON serialisation,
base64url, the `ms` duration parser, zod schemas, node crypto) are modelled as
function parameters, exactly at the boundary the source calls them.
-/

/-- JavaScript strings, modelled as lists of characters. -/
abbrev JsStr := List Char

/-- Semantics of JavaScript `String.prototype.split` with a single-character
separator: `''.split('.') = ['']`, `'a..b'.split('.') = ['a','','b']`.  The
result list is always non-empty. -/
def jsSplit (sep : Char) : JsStr → List JsStr
  | [] => [[]]
  | c :: rest =>
    if c = sep then
      [] :: jsSplit sep rest
    else
      match jsSplit sep rest with
      | [] => [[c]]
      | h :: t => (c :: h) :: t

/-- The twelve JWA algorithm identifiers of `JwtAlgorithmsSchema`. -/
inductive JwtAlgorithm
  | HS256 | HS384 | HS512
  | RS256 | RS384 | RS512
  | ES256 | ES384 | ES512
  | PS256 | PS384 | PS512
deriving DecidableEq, Repr

/-- The error taxonomy of the library (`JwtTokenMalformedError`,
`JwtTokenClaimError`, `JwtTokenInvalidSignatureError`,
`JwtProviderBadConfigError`, `JwtProviderInvalidKeyMaterialError`), each
carrying its message. -/
inductive JwtError
  | malformedToken (message : String)
  | claimError (message : String)
  | invalidSignature (message : String)
  | badConfig (message : String)
  | invalidKeyMaterial (message : String)
deriving DecidableEq, Repr

/-- A JavaScript value passed where a token string is expected: either an
actual string or a value of some other runtime type (`typeof jwt !== 'string'`). -/
inductive JsInput
  | str (s : JsStr)
  | nonString
deriving DecidableEq

/-- Result of `decodeJwt`: parsed header and payload JSON, the raw signature
segment, and the raw `headerPayload` substring. -/
structure DecodedJwt (J : Type) where
  header : J
  payload : J
  signature : JsStr
  headerPayload : JsStr
deriving DecidableEq

/-- Shallow embedding of `decodeJwt` (decode-jwt.ts).  `parseSeg` stands for
the external pipeline `JSON.parse(Buffer.from(toBase64(segment), 'base64')
.toString('utf-8'))`, returning `none` when that pipeline throws. -/
def decodeJwt {J : Type} (parseSeg : JsStr → Option J) (jwt : JsInput) :
    Except JwtError (DecodedJwt J) :=
  match jwt with
  | .nonString => .error (.malformedToken "JWT was not a string")
  | .str s =>
    let parts := jsSplit '.' s
    match parts[0]? with
    | none => .error (.malformedToken "No Header")
    | some header =>
      if header.length = 0 then .error (.malformedToken "No Header")
      else
        match parts[1]? with
        | none => .error (.malformedToken "No Payload")
        | some payload =>
          if payload.length = 0 then .error (.malformedToken "No Payload")
          else
            match parts[2]? with
            | none => .error (.malformedToken "No Signature")
            | some sg =>
              if sg.length = 0 then .error (.malformedToken "No Signature")
              else
                match parseSeg header with
                | none => .error (.malformedToken "Unable to JSON.parse JWT header")
                | some jsonHeader =>
                  match parseSeg payload with
                  | none => .error (.malformedToken "Unable to JSON.parse JWT payload")
                  | some jsonPayload =>
                    .ok { header := jsonHeader
                          payload := jsonPayload
                          signature := sg
                          headerPayload := header ++ '.' :: payload }

/-- A user-supplied `iat` / `nbf` / `exp` offset: absent, a number of
milliseconds, or a duration string; `strOff n` records the milliseconds the
external `ms` parser returns for that string. -/
inductive TimeOffset
  | noOff
  | numOff (n : Int)
  | strOff (msValue : Int)
deriving DecidableEq

/-- Input to `constructPublicClaims`: the user-provided public claims. -/
structure PublicClaimsInput where
  iat : TimeOffset := .noOff
  exp : TimeOffset := .noOff
  nbf : TimeOffset := .noOff
  iss : Option String := none
  aud : Option String := none
  sub : Option String := none
  jti : Option String := none
deriving DecidableEq

/-- The public-claims portion of a signed payload, as produced by
`constructPublicClaims`: the three time claims are always present. -/
structure PublicClaims where
  iat : Int
  exp : Int
  nbf : Int
  iss : Option String := none
  aud : Option String := none
  sub : Option String := none
  jti : Option String := none
deriving DecidableEq

/-- Shallow embedding of `constructPublicClaims`.  `constructionTime` is the
epoch-milliseconds value of `constructionDate` (or of `new Date()` when the
caller omitted it); `Math.floor` of a division by 1000 is `Int.fdiv`. -/
def constructPublicClaims (input : PublicClaimsInput) (constructionTime : Int) :
    PublicClaims :=
  { iat :=
      match input.iat with
      | .numOff n => Int.fdiv (constructionTime + n) 1000
      | .strOff n => Int.fdiv (constructionTime + n) 1000
      | .noOff => Int.fdiv constructionTime 1000
    exp :=
      match input.exp with
      | .numOff n => Int.fdiv (constructionTime + n) 1000
      | .strOff n => Int.fdiv (constructionTime + n) 1000
      | .noOff => Int.fdiv (constructionTime + 60000 * 15) 1000
    nbf :=
      match input.nbf with
      | .numOff n => Int.fdiv (constructionTime + n) 1000
      | .strOff n => Int.fdiv (constructionTime + n) 1000
      | .noOff => Int.fdiv constructionTime 1000
    aud := input.aud
    iss := input.iss
    jti := input.jti
    sub := input.sub }

/-- The `clockSkew` argument of `verify`: absent, a number of milliseconds, or
a duration string; `strSkew n` records the milliseconds returned by `ms`. -/
inductive SkewInput
  | noSkew
  | numSkew (n : Int)
  | strSkew (msValue : Int)
deriving DecidableEq

/-- The clock-skew computation shared by `Jwt._validateTimeBasedPublicClaims`
and `JwtAbstractProvider._validatePublicClaims`: the millisecond input is
floored to whole seconds. -/
def computeClockSkew : SkewInput → Int
  | .strSkew n => Int.fdiv n 1000
  | .numSkew n => Int.fdiv n 1000
  | .noSkew => 0

/-- The time claims of a decoded payload as seen by the validator: each may be
absent (a present non-numeric claim fails the zod `z.number()` check the same
way an absent one fails `required_error`, so both are modelled as `none`). -/
structure ParsedTimeClaims where
  iat : Option Int
  exp : Option Int
  nbf : Option Int
deriving DecidableEq

/-- View of materialized public claims as validator input; all three time
claims are present. -/
def PublicClaims.toTimeClaims (c : PublicClaims) : ParsedTimeClaims :=
  { iat := some c.iat, exp := some c.exp, nbf := some c.nbf }

/-- Shallow embedding of the time-claim validation shared by
`Jwt._validateTimeBasedPublicClaims` and
`JwtAbstractProvider._validatePublicClaims`: `iat` must be present, `exp`
must be present and at least `timestamp - clockSkew`, and `nbf`, when
present, must be at most `timestamp + clockSkew`.  `nowMs` is the value of
`new Date().getTime()` used when `timestampOverride` is absent. -/
def validateTimeBasedPublicClaims (timestampOverride : Option Int) (nowMs : Int)
    (skew : SkewInput) (claims : ParsedTimeClaims) : Except JwtError Unit :=
  let clockSkew := computeClockSkew skew
  let timestamp := Int.fdiv (timestampOverride.getD nowMs) 1000
  let ok := claims.iat.isSome
    && (match claims.exp with
        | some e => decide (e ≥ timestamp - clockSkew)
        | none => false)
    && (match claims.nbf with
        | some n => decide (n ≤ timestamp + clockSkew)
        | none => true)
  if ok then .ok () else .error (.claimError "PublicClaims validation failed")

/-- The declared encoding of a symmetric secret (`JwtSecretEncodingSchema`). -/
inductive SecretEncoding
  | base64
  | hex
deriving DecidableEq

/-- The bit strength parsed from an algorithm name by
`parseInt(algorithm.slice(-3), 10)`. -/
def JwtAlgorithm.bits : JwtAlgorithm → Nat
  | .HS256 | .RS256 | .ES256 | .PS256 => 256
  | .HS384 | .RS384 | .ES384 | .PS384 => 384
  | .HS512 | .RS512 | .ES512 | .PS512 => 512

/-- The symmetric (HMAC) algorithms accepted by `validateSecretMaterial`. -/
def symmetricAlgorithms : List JwtAlgorithm := [.HS256, .HS384, .HS512]

/-- Shallow embedding of `validateSecretMaterial`.  `bufLen` stands for the
external `Buffer.from(secret, encoding).byteLength`; `keySize << 3` is
`keySize * 8`. -/
def validateSecretMaterial (bufLen : SecretEncoding → JsStr → Nat)
    (secret : JsStr) (encoding : SecretEncoding) (algorithm : JwtAlgorithm) :
    Except JwtError Unit :=
  if algorithm ∉ symmetricAlgorithms then
    .error (.invalidKeyMaterial
      "An invalid algorithm was passed to validateSecretMaterial. Received an algorithm but expected one of HS256, HS384, or HS512")
  else if secret.length = 0 then
    .error (.invalidKeyMaterial
      "No secret value was passed to validateSecretMaterial. Expected a string")
  else if algorithm.bits > bufLen encoding secret * 8 then
    .error (.invalidKeyMaterial
      "The keySize of your secret must be greater than or equal to the size of the hashing algorithm.")
  else
    .ok ()

/-- Algorithms supported by `LocalHsProvider` (its `supportedAlgorithms`). -/
def localHsSupported : List JwtAlgorithm := [.HS256, .HS384, .HS512]

/-- Semantics of the `forEach` loop of the `LocalHsProvider` constructor:
`validateSecretMaterial` runs for every enabled algorithm; the first thrown
error aborts the loop and propagates. -/
def validateSecretForEach (bufLen : SecretEncoding → JsStr → Nat)
    (secret : JsStr) (encoding : SecretEncoding) :
    List JwtAlgorithm → Except JwtError Unit
  | [] => .ok ()
  | a :: rest => do
    validateSecretMaterial bufLen secret encoding a
    validateSecretForEach bufLen secret encoding rest

/-- Shallow embedding of the `LocalHsProvider` constructor: the abstract
constructor rejects enabled algorithms outside `supportedAlgorithms` with
`JwtProviderBadConfigError`, then every enabled algorithm is checked against
the secret with `validateSecretMaterial`.  Sign and verify never re-run this
validation (see `localHsGetSignature`, a total function). -/
def mkLocalHsProvider (bufLen : SecretEncoding → JsStr → Nat)
    (algorithms : List JwtAlgorithm) (secret : JsStr)
    (encoding : SecretEncoding) : Except JwtError Unit :=
  match algorithms.find? (fun a => !(localHsSupported.contains a)) with
  | some _ => .error (.badConfig "An unsupported algorithm was supplied.")
  | none => validateSecretForEach bufLen secret encoding algorithms

/-- Shallow embedding of `LocalHsProvider.getSignature`: `hmac` stands for the
external node-crypto HMAC over the decoded secret, already composed with the
`toBase64Url` conversion.  A total function: signing never validates key
material. -/
def localHsGetSignature (hmac : JwtAlgorithm → JsStr → JsStr)
    (algorithm : JwtAlgorithm) (headerPayload : JsStr) : JsStr :=
  hmac algorithm headerPayload

/-- Shallow embedding of `signatureMatches` (strict string equality). -/
def signatureMatches (sig1 sig2 : JsStr) : Bool :=
  sig1 = sig2

/-- Shallow embedding of `LocalHsProvider._verifySignature`: recompute and
compare using `signatureMatches`. -/
def localHsVerifySignature (hmac : JwtAlgorithm → JsStr → JsStr)
    (algorithm : JwtAlgorithm) (headerPayload providedSignature : JsStr) : Bool :=
  signatureMatches (localHsGetSignature hmac algorithm headerPayload) providedSignature

/-- The parsed JWT header after `_validateHeaderSchema`: `typ` is the literal
"JWT" and is not recorded, `alg` is a recognized algorithm. -/
structure JwtHeader where
  alg : JwtAlgorithm
deriving DecidableEq

/-- The payload object assembled by `sign`: the spread
`{ ...privateClaims, ...publicClaims }` of parsed private claims and
materialized public claims. -/
structure PayloadObj (P : Type) where
  priv : P
  pub : PublicClaims
deriving DecidableEq

/-- A provider with its configuration and external collaborators, as driven by
the `JwtAbstractProvider` pipelines.  `J` is the domain of raw parsed JSON
values, `P` the domain of parsed private claims.

* `enabledAlgorithms` — the `algorithms` constructor argument;
* `encodeHeader` / `encodePayload` — `toBase64Url(JSON.stringify(...))`;
* `generateSignature` / `verifySignature` — the abstract backend operations;
* `parseSeg` — base64url-decode + `JSON.parse` of one token segment;
* `headerOfJson` — the zod `JwtHeaderSchema` parse (`typ` = "JWT", known `alg`);
* `privOfJson` / `pubOfJson` — `_validatePrivateClaimsSchema` /
  `_validatePublicClaimsSchema` on the decoded payload;
* `privSignSchema` / `pubSignSchema` — the same schema checks applied on the
  sign path to the outgoing claims. -/
structure ProviderModel (J P : Type) where
  enabledAlgorithms : List JwtAlgorithm
  encodeHeader : JwtHeader → JsStr
  encodePayload : PayloadObj P → JsStr
  generateSignature : JwtAlgorithm → JsStr → JsStr
  verifySignature : JwtAlgorithm → JsStr → JsStr → Bool
  parseSeg : JsStr → Option J
  headerOfJson : J → Option JwtHeader
  privOfJson : J → Option P
  pubOfJson : J → Option PublicClaims
  privSignSchema : P → Option P
  pubSignSchema : PublicClaims → Option PublicClaims

/-- The throw-on-parse-failure pattern of the pipelines: a failed schema or
header parse throws the given error, a successful one yields the parsed
value. -/
def parseOr {A : Type} (o : Option A) (e : JwtError) : Except JwtError A :=
  match o with
  | none => .error e
  | some v => .ok v

/-- Shallow embedding of `JwtAbstractProvider._verifyAlgorithmIsEnabled`. -/
def verifyAlgorithmIsEnabled {J P : Type} (M : ProviderModel J P)
    (algorithm : JwtAlgorithm) : Except JwtError Unit :=
  if M.enabledAlgorithms.contains algorithm then .ok ()
  else .error (.badConfig "Algorithm is not enabled.")

/-- Shallow embedding of `JwtAbstractProvider.sign`: check the algorithm is
enabled, construct the header and the public claims, validate both claim sets
against the provider schemas, encode `headerPayload`, obtain the backend
signature and assemble the compact token. -/
def providerSign {J P : Type} (M : ProviderModel J P) (algorithm : JwtAlgorithm)
    (publicClaims : PublicClaimsInput) (privateClaims : P)
    (constructionTime : Int) : Except JwtError JsStr := do
  verifyAlgorithmIsEnabled M algorithm
  let header : JwtHeader := { alg := algorithm }
  let pub := constructPublicClaims publicClaims constructionTime
  let priv' ← parseOr (M.privSignSchema privateClaims)
    (.claimError "Unable to validate the private claims")
  let pub' ← parseOr (M.pubSignSchema pub)
    (.claimError "Unable to validate the private claims")
  let headerPayload := M.encodeHeader header ++ '.' :: M.encodePayload ⟨priv', pub'⟩
  let signature := M.generateSignature header.alg headerPayload
  return headerPayload ++ '.' :: signature

/-- Result of a successful `decode` or `verify`. -/
structure ParsedTokenResult (P : Type) where
  header : JwtHeader
  privateClaims : P
  publicClaims : PublicClaims
deriving DecidableEq

/-- Shallow embedding of `JwtAbstractProvider.decode`: decode the compact
token, parse private claims, public claims and header, then run the optional
`validate` callback; a `false` result raises `JwtTokenClaimError`.  No
signature or time-claim check is performed. -/
def providerDecode {J P : Type} (M : ProviderModel J P) (token : JsInput)
    (validate : Option (JwtHeader → P → PublicClaims → Bool)) :
    Except JwtError (ParsedTokenResult P) := do
  let d ← decodeJwt M.parseSeg token
  let privateClaimsParsed ← parseOr (M.privOfJson d.payload)
    (.claimError "Unable to validate the private claims")
  let publicClaimsParsed ← parseOr (M.pubOfJson d.payload)
    (.claimError "Unable to validate the private claims")
  let headerParsed ← parseOr (M.headerOfJson d.header)
    (.malformedToken "Error when validating the header of the JWT")
  match validate with
  | some cb =>
    if cb headerParsed privateClaimsParsed publicClaimsParsed = false then
      throw (.claimError "Claim validation failed via the custom validate function")
    else
      return { header := headerParsed
               privateClaims := privateClaimsParsed
               publicClaims := publicClaimsParsed }
  | none =>
    return { header := headerParsed
             privateClaims := privateClaimsParsed
             publicClaims := publicClaimsParsed }

/-- Shallow embedding of `JwtAbstractProvider.verify`: decode, validate the
header shape, check the algorithm is enabled, check the signature over the
original `headerPayload` bytes (a `false` backend answer raises
`JwtTokenInvalidSignatureError`), parse both claim sets, validate the time
claims, then run the optional `validate` callback. -/
def providerVerify {J P : Type} (M : ProviderModel J P) (token : JsInput)
    (skew : SkewInput) (timestampOverride : Option Int) (nowMs : Int)
    (validate : Option (JwtHeader → P → PublicClaims → Bool)) :
    Except JwtError (ParsedTokenResult P) := do
  let d ← decodeJwt M.parseSeg token
  let headerParsed ← parseOr (M.headerOfJson d.header)
    (.malformedToken "Error when validating the header of the JWT")
  verifyAlgorithmIsEnabled M headerParsed.alg
  let isValid := M.verifySignature headerParsed.alg d.headerPayload d.signature
  if isValid = false then
    throw (.invalidSignature "JWT has an invalid signature")
  else
    let privateClaimsParsed ← parseOr (M.privOfJson d.payload)
      (.claimError "Unable to validate the private claims")
    let publicClaimsParsed ← parseOr (M.pubOfJson d.payload)
      (.claimError "Unable to validate the private claims")
    validateTimeBasedPublicClaims timestampOverride nowMs skew
      publicClaimsParsed.toTimeClaims
    match validate with
    | some cb =>
      if cb headerParsed privateClaimsParsed publicClaimsParsed ≠ true then
        throw (.claimError "Claim validation failed via the custom validate function")
      else
        return { header := headerParsed
                 privateClaims := privateClaimsParsed
                 publicClaims := publicClaimsParsed }
    | none =>
      return { header := headerParsed
               privateClaims := privateClaimsParsed
               publicClaims := publicClaimsParsed }

/-! ### Helper lemmas -/

theorem jsSplit_ne_nil (sep : Char) (s : JsStr) : jsSplit sep s ≠ [] := by
  induction s with
  | nil => simp [jsSplit]
  | cons c rest ih =>
    simp only [jsSplit]
    split
    · simp
    · split
      · simp
      · simp

theorem jsSplit_of_not_mem (sep : Char) (s : JsStr) (h : sep ∉ s) :
    jsSplit sep s = [s] := by
  induction s with
  | nil => rfl
  | cons c rest ih =>
    have h1 : ¬(c = sep) := fun hc => h (by simp [hc])
    have h2 : sep ∉ rest := fun hm => h (by simp [hm])
    simp [jsSplit, h1, ih h2]

theorem jsSplit_append (sep : Char) (a r : JsStr) (h : sep ∉ a) :
    jsSplit sep (a ++ sep :: r) = a :: jsSplit sep r := by
  induction a with
  | nil => simp [jsSplit]
  | cons c rest ih =>
    have h1 : ¬(c = sep) := fun hc => h (by simp [hc])
    have h2 : sep ∉ rest := fun hm => h (by simp [hm])
    simp only [List.cons_append, jsSplit, if_neg h1]
    rw [show rest.append (sep :: r) = rest ++ sep :: r from rfl, ih h2]

theorem validateTimeBasedPublicClaims_ok_iff (tsO : Option Int) (nowMs : Int)
    (skew : SkewInput) (claims : ParsedTimeClaims) :
    validateTimeBasedPublicClaims tsO nowMs skew claims = .ok () ↔
      (claims.iat.isSome = true ∧
        (∃ e, claims.exp = some e ∧
          Int.fdiv (tsO.getD nowMs) 1000 - computeClockSkew skew ≤ e) ∧
        ∀ v, claims.nbf = some v →
          v ≤ Int.fdiv (tsO.getD nowMs) 1000 + computeClockSkew skew) := by
  rcases claims with ⟨iat, exp, nbf⟩
  unfold validateTimeBasedPublicClaims
  cases iat <;> cases exp <;> cases nbf <;>
    · split <;> simp_all [ge_iff_le]

theorem validateTimeBasedPublicClaims_cases (tsO : Option Int) (nowMs : Int)
    (skew : SkewInput) (claims : ParsedTimeClaims) :
    validateTimeBasedPublicClaims tsO nowMs skew claims = .ok () ∨
      validateTimeBasedPublicClaims tsO nowMs skew claims =
        .error (.claimError "PublicClaims validation failed") := by
  unfold validateTimeBasedPublicClaims
  split <;> simp

theorem validateTimeBasedPublicClaims_error_iff (tsO : Option Int) (nowMs : Int)
    (skew : SkewInput) (claims : ParsedTimeClaims) :
    validateTimeBasedPublicClaims tsO nowMs skew claims =
        .error (.claimError "PublicClaims validation failed") ↔
      ¬(claims.iat.isSome = true ∧
        (∃ e, claims.exp = some e ∧
          Int.fdiv (tsO.getD nowMs) 1000 - computeClockSkew skew ≤ e) ∧
        ∀ v, claims.nbf = some v →
          v ≤ Int.fdiv (tsO.getD nowMs) 1000 + computeClockSkew skew) := by
  rw [← validateTimeBasedPublicClaims_ok_iff]
  rcases validateTimeBasedPublicClaims_cases tsO nowMs skew claims with h | h <;>
    simp [h]

/-! ### Claim theorems: claim builder and time validation -/

/-- C3: for every base timestamp `T` in milliseconds and optional
`iat` / `nbf` / `exp` offsets (number of milliseconds or a duration string
parsed to milliseconds), `constructPublicClaims` yields
`iat = floor((T + offset(iat, default 0)) / 1000)`,
`nbf = floor((T + offset(nbf, default 0)) / 1000)` and
`exp = floor((T + offset(exp, default 900000)) / 1000)`; signing
`{sub: "user_1"}` with all offsets omitted at `T = 1700000000000` yields
`{sub: "user_1", iat: 1700000000, nbf: 1700000000, exp: 1700000900}`. -/
theorem c3_time_claim_construction :
    (∀ (input : PublicClaimsInput) (T : Int),
      (constructPublicClaims input T).iat =
        Int.fdiv (T + (match input.iat with
          | .noOff => 0 | .numOff n => n | .strOff n => n)) 1000 ∧
      (constructPublicClaims input T).nbf =
        Int.fdiv (T + (match input.nbf with
          | .noOff => 0 | .numOff n => n | .strOff n => n)) 1000 ∧
      (constructPublicClaims input T).exp =
        Int.fdiv (T + (match input.exp with
          | .noOff => 900000 | .numOff n => n | .strOff n => n)) 1000) ∧
    constructPublicClaims { sub := some "user_1" } 1700000000000 =
      { iat := 1700000000, exp := 1700000900, nbf := 1700000000,
        sub := some "user_1" } := by
  constructor
  · intro input T
    rcases input with ⟨iat, exp, nbf, _, _, _, _⟩
    refine ⟨?_, ?_, ?_⟩ <;>
      cases iat <;> cases exp <;> cases nbf <;>
        simp [constructPublicClaims]
  · decide

/-- C10: the effective skew tolerance for a numeric `clockSkew` of `n`
milliseconds is `floor(n / 1000)` whole seconds (a string `clockSkew` is first
parsed to milliseconds and floored the same way); for `0 ≤ n < 1000` the time
validation behaves exactly as with `clockSkew = 0`. -/
theorem c10_clock_skew_floored :
    (∀ n : Int, computeClockSkew (.numSkew n) = Int.fdiv n 1000) ∧
    (∀ n : Int, computeClockSkew (.strSkew n) = Int.fdiv n 1000) ∧
    (∀ n : Int, 0 ≤ n → n < 1000 →
      ∀ (tsO : Option Int) (nowMs : Int) (claims : ParsedTimeClaims),
        validateTimeBasedPublicClaims tsO nowMs (.numSkew n) claims =
          validateTimeBasedPublicClaims tsO nowMs .noSkew claims) := by
  refine ⟨fun n => rfl, fun n => rfl, ?_⟩
  intro n h0 h1 tsO nowMs claims
  have hz : computeClockSkew (.numSkew n) = 0 := by
    show Int.fdiv n 1000 = 0
    rw [Int.fdiv_eq_ediv _ (by norm_num)]
    exact Int.ediv_eq_zero_of_lt h0 h1
  unfold validateTimeBasedPublicClaims
  rw [hz]
  simp only [computeClockSkew]

/-- Witness for C10 at `clockSkew = 500` milliseconds. -/
theorem c10_clock_skew_floored_witness :
    validateTimeBasedPublicClaims (some 1700000000000) 0 (.numSkew 500)
        ⟨some 1700000000, some 1700000900, some 1700000000⟩ =
      validateTimeBasedPublicClaims (some 1700000000000) 0 .noSkew
        ⟨some 1700000000, some 1700000900, some 1700000000⟩ :=
  c10_clock_skew_floored.2.2 500 (by decide) (by decide) _ _ _

/-- C4: with `iat` present and the `nbf` bound satisfied, time validation
fails with `ClaimError` exactly when `exp < referenceTime - skewTolerance`
(whole seconds); in particular `exp = referenceTime - 1` fails at zero skew
and passes once the skew tolerance is at least one second. -/
theorem c4_exp_expiry_boundary (tsO : Option Int) (nowMs ts : Int)
    (hts : ts = Int.fdiv (tsO.getD nowMs) 1000)
    (claims : ParsedTimeClaims) (e : Int)
    (hexp : claims.exp = some e) (hiat : claims.iat.isSome = true) :
    (∀ skew : SkewInput,
      (∀ v, claims.nbf = some v → v ≤ ts + computeClockSkew skew) →
      (validateTimeBasedPublicClaims tsO nowMs skew claims =
          .error (.claimError "PublicClaims validation failed") ↔
        e < ts - computeClockSkew skew)) ∧
    ((∀ v, claims.nbf = some v → v ≤ ts) → e = ts - 1 →
      validateTimeBasedPublicClaims tsO nowMs .noSkew claims =
          .error (.claimError "PublicClaims validation failed") ∧
      (∀ n : Int, 1 ≤ computeClockSkew (.numSkew n) →
        validateTimeBasedPublicClaims tsO nowMs (.numSkew n) claims = .ok ())) := by
  subst hts
  have main : ∀ skew : SkewInput,
      (∀ v, claims.nbf = some v →
        v ≤ Int.fdiv (tsO.getD nowMs) 1000 + computeClockSkew skew) →
      (validateTimeBasedPublicClaims tsO nowMs skew claims =
          .error (.claimError "PublicClaims validation failed") ↔
        e < Int.fdiv (tsO.getD nowMs) 1000 - computeClockSkew skew) := by
    intro skew hnbf
    rw [validateTimeBasedPublicClaims_error_iff]
    constructor
    · intro hno
      by_contra hlt
      push_neg at hlt
      exact hno ⟨hiat, ⟨e, hexp, by omega⟩, hnbf⟩
    · rintro hlt ⟨-, ⟨e', he', hle⟩, -⟩
      rw [hexp] at he'
      cases he'
      omega
  refine ⟨main, ?_⟩
  intro hnbf he1
  constructor
  · rw [main .noSkew (by simpa [computeClockSkew] using hnbf)]
    simp only [computeClockSkew]
    omega
  · intro n hn
    rw [validateTimeBasedPublicClaims_ok_iff]
    refine ⟨hiat, ⟨e, hexp, by omega⟩, ?_⟩
    intro v hv
    have := hnbf v hv
    omega

/-- Witness for C4: reference time 1700000000 s, token expiry 1699999999. -/
theorem c4_exp_expiry_boundary_witness :
    validateTimeBasedPublicClaims (some 1700000000000) 0 .noSkew
        ⟨some 1, some 1699999999, none⟩ =
      .error (.claimError "PublicClaims validation failed") ∧
    validateTimeBasedPublicClaims (some 1700000000000) 0 (.numSkew 1000)
        ⟨some 1, some 1699999999, none⟩ = .ok () := by
  have h := c4_exp_expiry_boundary (some 1700000000000) 0 1700000000 (by decide)
      ⟨some 1, some 1699999999, none⟩ 1699999999 rfl rfl
  have h2 := h.2 (by intro v hv; cases hv) (by decide)
  exact ⟨h2.1, h2.2 1000 (by decide)⟩

/-- C5: with `iat` present and the `exp` bound satisfied, a present numeric
`nbf` fails with `ClaimError` exactly when `nbf > referenceTime +
skewTolerance`; an absent `nbf` passes; yet `constructPublicClaims` always
sets an `nbf` claim on every token it produces. -/
theorem c5_nbf_optional_on_verify (tsO : Option Int) (nowMs ts : Int)
    (hts : ts = Int.fdiv (tsO.getD nowMs) 1000)
    (skew : SkewInput) (claims : ParsedTimeClaims)
    (hiat : claims.iat.isSome = true)
    (hexp : ∃ e, claims.exp = some e ∧ ts - computeClockSkew skew ≤ e) :
    (∀ v, claims.nbf = some v →
      (validateTimeBasedPublicClaims tsO nowMs skew claims =
          .error (.claimError "PublicClaims validation failed") ↔
        ts + computeClockSkew skew < v)) ∧
    (claims.nbf = none →
      validateTimeBasedPublicClaims tsO nowMs skew claims = .ok ()) ∧
    (∀ (input : PublicClaimsInput) (T : Int),
      ((constructPublicClaims input T).toTimeClaims).nbf =
        some (constructPublicClaims input T).nbf) := by
  subst hts
  refine ⟨?_, ?_, fun input T => rfl⟩
  · intro v hv
    rw [validateTimeBasedPublicClaims_error_iff]
    constructor
    · intro hno
      by_contra hle
      push_neg at hle
      refine hno ⟨hiat, hexp, ?_⟩
      intro w hw
      rw [hv] at hw
      cases hw
      omega
    · rintro hlt ⟨-, -, hn⟩
      have := hn v hv
      omega
  · intro hnone
    rw [validateTimeBasedPublicClaims_ok_iff]
    refine ⟨hiat, hexp, ?_⟩
    intro v hv
    rw [hnone] at hv
    cases hv

/-- Witness for C5: a future `nbf` fails, the same token without `nbf`
passes. -/
theorem c5_nbf_optional_on_verify_witness :
    validateTimeBasedPublicClaims (some 1700000000000) 0 .noSkew
        ⟨some 1, some 1700000900, some 1700000001⟩ =
      .error (.claimError "PublicClaims validation failed") ∧
    validateTimeBasedPublicClaims (some 1700000000000) 0 .noSkew
        ⟨some 1, some 1700000900, none⟩ = .ok () := by
  constructor
  · exact (c5_nbf_optional_on_verify (some 1700000000000) 0 1700000000
      (by decide) .noSkew ⟨some 1, some 1700000900, some 1700000001⟩ rfl
      ⟨1700000900, rfl, by decide⟩).1 1700000001 rfl |>.mpr (by decide)
  · exact (c5_nbf_optional_on_verify (some 1700000000000) 0 1700000000
      (by decide) .noSkew ⟨some 1, some 1700000900, none⟩ rfl
      ⟨1700000900, rfl, by decide⟩).2.1 rfl

/-! ### Helper lemmas about `decodeJwt` -/

theorem decodeJwt_ok {J : Type} (parseSeg : JsStr → Option J) (s h p sg : JsStr)
    (jh jp : J)
    (h0 : (jsSplit '.' s)[0]? = some h) (hne : h ≠ [])
    (h1 : (jsSplit '.' s)[1]? = some p) (pne : p ≠ [])
    (h2 : (jsSplit '.' s)[2]? = some sg) (sne : sg ≠ [])
    (ph : parseSeg h = some jh) (pp : parseSeg p = some jp) :
    decodeJwt parseSeg (.str s) =
      .ok { header := jh, payload := jp, signature := sg,
            headerPayload := h ++ '.' :: p } := by
  simp [decodeJwt, h0, h1, h2, ph, pp, hne, pne, sne]

theorem decodeJwt_error_malformed {J : Type} (parseSeg : JsStr → Option J)
    (input : JsInput) (e : JwtError)
    (h : decodeJwt parseSeg input = .error e) : ∃ msg, e = .malformedToken msg := by
  cases input with
  | nonString => exact ⟨"JWT was not a string", by simpa [decodeJwt] using h.symm⟩
  | str s =>
    simp only [decodeJwt] at h
    repeat' split at h
    all_goals try simp_all
    all_goals exact ⟨_, h.symm⟩

theorem decodeJwt_ok_inv {J : Type} (parseSeg : JsStr → Option J) (s : JsStr)
    (d : DecodedJwt J) (h : decodeJwt parseSeg (.str s) = .ok d) :
    ∃ hd p, (jsSplit '.' s)[0]? = some hd ∧ hd ≠ [] ∧
      (jsSplit '.' s)[1]? = some p ∧ p ≠ [] ∧
      (jsSplit '.' s)[2]? = some d.signature ∧ d.signature ≠ [] ∧
      parseSeg hd = some d.header ∧ parseSeg p = some d.payload ∧
      d.headerPayload = hd ++ '.' :: p := by
  simp only [decodeJwt] at h
  repeat' split at h
  all_goals try (cases h)
  refine ⟨_, _, ?_, ?_, ?_, ?_, ?_, ?_, ?_, ?_, rfl⟩ <;>
    first
      | assumption
      | (simp only [ne_eq, ← List.length_eq_zero]; assumption)

/-! ### Claim theorems: decoding -/

/-- C7: `decodeJwt` raises `MalformedToken` exactly when the input is not a
string, or one of the three '.'-separated segments is missing or empty, or
the header or payload segment fails base64url decoding followed by JSON
parsing; on every other input it returns the parsed header, parsed payload,
the signature segment and the `headerPayload` substring without raising. -/
theorem c7_decode_malformed_characterization (J : Type)
    (parseSeg : JsStr → Option J) (input : JsInput) :
    ((∃ msg, decodeJwt parseSeg input = .error (.malformedToken msg)) ↔
      (input = .nonString ∨
        ∃ s, input = .str s ∧
          ((jsSplit '.' s)[0]? = some [] ∨
           (jsSplit '.' s)[1]? = none ∨ (jsSplit '.' s)[1]? = some [] ∨
           (jsSplit '.' s)[2]? = none ∨ (jsSplit '.' s)[2]? = some [] ∨
           (∃ hd, (jsSplit '.' s)[0]? = some hd ∧ parseSeg hd = none) ∨
           (∃ hd p, (jsSplit '.' s)[0]? = some hd ∧
             (jsSplit '.' s)[1]? = some p ∧ parseSeg p = none)))) ∧
    (∀ s hd p sg jh jp, input = .str s →
      (jsSplit '.' s)[0]? = some hd → hd ≠ [] →
      (jsSplit '.' s)[1]? = some p → p ≠ [] →
      (jsSplit '.' s)[2]? = some sg → sg ≠ [] →
      parseSeg hd = some jh → parseSeg p = some jp →
      decodeJwt parseSeg input =
        .ok { header := jh, payload := jp, signature := sg,
              headerPayload := hd ++ '.' :: p }) := by
  constructor
  · cases input with
    | nonString =>
      constructor
      · intro _
        exact Or.inl rfl
      · intro _
        exact ⟨"JWT was not a string", rfl⟩
    | str s =>
      constructor
      · rintro ⟨msg, hmsg⟩
        refine Or.inr ⟨s, rfl, ?_⟩
        by_contra hno
        push_neg at hno
        obtain ⟨hn0, hn1, hn1e, hn2, hn2e, hnph, hnpp⟩ := hno
        obtain ⟨hd, hhd⟩ : ∃ hd, (jsSplit '.' s)[0]? = some hd := by
          cases hsp : jsSplit '.' s with
          | nil => exact absurd hsp (jsSplit_ne_nil '.' s)
          | cons a t => exact ⟨a, by simp [hsp]⟩
        have hdne : hd ≠ [] := fun he => hn0 (he ▸ hhd)
        obtain ⟨p, hp⟩ : ∃ p, (jsSplit '.' s)[1]? = some p := by
          cases h1 : (jsSplit '.' s)[1]? with
          | none => exact absurd h1 hn1
          | some p => exact ⟨p, rfl⟩
        have hpne : p ≠ [] := fun he => hn1e (he ▸ hp)
        obtain ⟨sg, hsg⟩ : ∃ sg, (jsSplit '.' s)[2]? = some sg := by
          cases h2 : (jsSplit '.' s)[2]? with
          | none => exact absurd h2 hn2
          | some sg => exact ⟨sg, rfl⟩
        have hsne : sg ≠ [] := fun he => hn2e (he ▸ hsg)
        obtain ⟨jh, hjh⟩ : ∃ jh, parseSeg hd = some jh := by
          cases hph : parseSeg hd with
          | none => exact absurd hph (hnph hd hhd)
          | some jh => exact ⟨jh, rfl⟩
        obtain ⟨jp, hjp⟩ : ∃ jp, parseSeg p = some jp := by
          cases hpp : parseSeg p with
          | none => exact absurd hpp (hnpp hd p hhd hp)
          | some jp => exact ⟨jp, rfl⟩
        rw [decodeJwt_ok parseSeg s hd p sg jh jp hhd hdne hp hpne hsg hsne
          hjh hjp] at hmsg
        cases hmsg
      · intro hcond
        rcases hcond with hns | ⟨s', hs', hc⟩
        · cases hns
        · cases hs'
          cases hdec : decodeJwt parseSeg (.str s) with
          | error e =>
            obtain ⟨msg, rfl⟩ := decodeJwt_error_malformed parseSeg _ e hdec
            exact ⟨msg, rfl⟩
          | ok d =>
            exfalso
            obtain ⟨hd, p, h0, hne, h1, pne, h2, sne, hph, hpp, hhp⟩ :=
              decodeJwt_ok_inv parseSeg s d hdec
            rcases hc with hc | hc | hc | hc | hc | ⟨hd', hc1, hc2⟩ |
              ⟨hd', p', hc1, hc2, hc3⟩
            · rw [h0] at hc
              simp only [Option.some.injEq] at hc
              exact hne hc
            · rw [h1] at hc
              cases hc
            · rw [h1] at hc
              simp only [Option.some.injEq] at hc
              exact pne hc
            · rw [h2] at hc
              cases hc
            · rw [h2] at hc
              simp only [Option.some.injEq] at hc
              exact sne hc
            · rw [h0] at hc1
              simp only [Option.some.injEq] at hc1
              subst hc1
              rw [hph] at hc2
              cases hc2
            · rw [h0] at hc1
              simp only [Option.some.injEq] at hc1
              subst hc1
              rw [h1] at hc2
              simp only [Option.some.injEq] at hc2
              subst hc2
              rw [hpp] at hc3
              cases hc3
  · intro s hd p sg jh jp hin h0 hne h1 pne h2 sne hph hpp
    subst hin
    exact decodeJwt_ok parseSeg s hd p sg jh jp h0 hne h1 pne h2 sne hph hpp

/-- Witness for C7: the well-formed token "a.b.c" decodes successfully. -/
theorem c7_decode_malformed_characterization_witness :
    decodeJwt (fun _ => some ()) (.str ('a' :: '.' :: 'b' :: '.' :: ['c'])) =
      .ok { header := (), payload := (), signature := ['c'],
            headerPayload := 'a' :: '.' :: ['b'] } :=
  (c7_decode_malformed_characterization Unit (fun _ => some ())
      (.str ('a' :: '.' :: 'b' :: '.' :: ['c']))).2
    ('a' :: '.' :: 'b' :: '.' :: ['c']) ['a'] ['b'] ['c'] () () rfl
    (by decide) (by decide) (by decide) (by decide) (by decide) (by decide)
    rfl rfl

/-- C9: an input with four or more '.'-separated segments whose first three
segments are non-empty and whose first two segments parse is accepted rather
than rejected as malformed: the third segment becomes the signature and every
segment after the third is silently discarded. -/
theorem c9_extra_segments_ignored (J : Type) (parseSeg : JsStr → Option J)
    (s1 s2 s3 rest : JsStr)
    (d1 : '.' ∉ s1) (d2 : '.' ∉ s2) (d3 : '.' ∉ s3)
    (n1 : s1 ≠ []) (n2 : s2 ≠ []) (n3 : s3 ≠ [])
    (jh jp : J) (ph : parseSeg s1 = some jh) (pp : parseSeg s2 = some jp) :
    decodeJwt parseSeg (.str (s1 ++ '.' :: (s2 ++ '.' :: (s3 ++ '.' :: rest)))) =
      .ok { header := jh, payload := jp, signature := s3,
            headerPayload := s1 ++ '.' :: s2 } := by
  have hsplit : jsSplit '.' (s1 ++ '.' :: (s2 ++ '.' :: (s3 ++ '.' :: rest))) =
      s1 :: s2 :: s3 :: jsSplit '.' rest := by
    rw [jsSplit_append '.' s1 _ d1, jsSplit_append '.' s2 _ d2,
      jsSplit_append '.' s3 _ d3]
  exact decodeJwt_ok parseSeg _ s1 s2 s3 jh jp (by simp [hsplit]) n1
    (by simp [hsplit]) n2 (by simp [hsplit]) n3 ph pp

/-- Witness for C9: "a.b.c.d" is accepted and "d" is discarded. -/
theorem c9_extra_segments_ignored_witness :
    decodeJwt (fun _ => some ())
        (.str ('a' :: '.' :: 'b' :: '.' :: 'c' :: '.' :: ['d'])) =
      .ok { header := (), payload := (), signature := ['c'],
            headerPayload := 'a' :: '.' :: ['b'] } :=
  c9_extra_segments_ignored Unit (fun _ => some ()) ['a'] ['b'] ['c'] ['d']
    (by decide) (by decide) (by decide) (by decide) (by decide) (by decide)
    () () rfl rfl

/-! ### Helper lemmas about secret validation -/

theorem validateSecretMaterial_error_kind (bufLen : SecretEncoding → JsStr → Nat)
    (secret : JsStr) (encoding : SecretEncoding) (alg : JwtAlgorithm)
    (e : JwtError)
    (h : validateSecretMaterial bufLen secret encoding alg = .error e) :
    ∃ msg, e = .invalidKeyMaterial msg := by
  unfold validateSecretMaterial at h
  split at h
  · cases h
    exact ⟨_, rfl⟩
  · split at h
    · cases h
      exact ⟨_, rfl⟩
    · split at h
      · cases h
        exact ⟨_, rfl⟩
      · cases h

theorem validateSecretForEach_ok_iff (bufLen : SecretEncoding → JsStr → Nat)
    (secret : JsStr) (encoding : SecretEncoding) (algs : List JwtAlgorithm) :
    validateSecretForEach bufLen secret encoding algs = .ok () ↔
      ∀ a ∈ algs, validateSecretMaterial bufLen secret encoding a = .ok () := by
  induction algs with
  | nil => simp [validateSecretForEach]
  | cons a t ih =>
    unfold validateSecretForEach
    cases hv : validateSecretMaterial bufLen secret encoding a with
    | error e =>
      constructor
      · intro hcon
        cases hcon
      · intro hall
        exact absurd (hall a (by simp)) (by simp [hv])
    | ok u =>
      cases u
      rw [show ((Except.ok () : Except JwtError Unit) >>= fun _ =>
        validateSecretForEach bufLen secret encoding t) =
        validateSecretForEach bufLen secret encoding t from rfl]
      constructor
      · intro hcon b hmem
        rcases List.mem_cons.mp hmem with rfl | hmem2
        · exact hv
        · exact ih.mp hcon b hmem2
      · intro hall
        exact ih.mpr fun b hb => hall b (List.mem_cons_of_mem a hb)

theorem validateSecretForEach_error (bufLen : SecretEncoding → JsStr → Nat)
    (secret : JsStr) (encoding : SecretEncoding) (algs : List JwtAlgorithm)
    (e : JwtError)
    (h : validateSecretForEach bufLen secret encoding algs = .error e) :
    ∃ a ∈ algs, validateSecretMaterial bufLen secret encoding a = .error e := by
  induction algs with
  | nil => cases h
  | cons a t ih =>
    unfold validateSecretForEach at h
    cases hv : validateSecretMaterial bufLen secret encoding a with
    | error e2 =>
      rw [hv] at h
      cases h
      exact ⟨a, by simp, hv⟩
    | ok u =>
      cases u
      rw [hv] at h
      obtain ⟨b, hb, he⟩ := ih h
      exact ⟨b, List.mem_cons_of_mem a hb, he⟩

/-! ### Claim theorems: key material -/

/-- C8: for a symmetric (HS256/HS384/HS512) algorithm, `validateSecretMaterial`
throws `InvalidKeyMaterial` whenever the decoded byte length of the secret is
strictly below the algorithm's bit strength divided by 8, and succeeds when
the decoded byte length meets that minimum; the `LocalHsProvider` constructor
runs exactly this check for every enabled algorithm, so a weak secret is
rejected at construction time with `InvalidKeyMaterial` (signing and
verifying, `localHsGetSignature` / `localHsVerifySignature`, are total
functions that never re-validate key material). -/
theorem c8_secret_strength_at_construction
    (bufLen : SecretEncoding → JsStr → Nat) (secret : JsStr)
    (encoding : SecretEncoding) :
    (∀ alg ∈ symmetricAlgorithms,
      (bufLen encoding secret * 8 < alg.bits →
        ∃ msg, validateSecretMaterial bufLen secret encoding alg =
          .error (.invalidKeyMaterial msg)) ∧
      (secret ≠ [] → alg.bits ≤ bufLen encoding secret * 8 →
        validateSecretMaterial bufLen secret encoding alg = .ok ())) ∧
    (∀ algs : List JwtAlgorithm, (∀ a ∈ algs, a ∈ localHsSupported) →
      (mkLocalHsProvider bufLen algs secret encoding = .ok () ↔
        ∀ a ∈ algs,
          validateSecretMaterial bufLen secret encoding a = .ok ()) ∧
      (∀ e, mkLocalHsProvider bufLen algs secret encoding = .error e →
        ∃ msg, e = .invalidKeyMaterial msg)) ∧
    (∀ (hmac : JwtAlgorithm → JsStr → JsStr) (alg : JwtAlgorithm)
        (headerPayload : JsStr),
      localHsVerifySignature hmac alg headerPayload
        (localHsGetSignature hmac alg headerPayload) = true) := by
  have hfind : ∀ algs : List JwtAlgorithm, (∀ a ∈ algs, a ∈ localHsSupported) →
      algs.find? (fun a => !(localHsSupported.contains a)) = none := by
    intro algs hsup
    rw [List.find?_eq_none]
    intro a ha
    simp [List.elem_iff, hsup a ha]
  refine ⟨?_, ?_, ?_⟩
  · intro alg halg
    constructor
    · intro hlt
      unfold validateSecretMaterial
      rw [if_neg (not_not_intro halg)]
      by_cases hsec : secret.length = 0
      · rw [if_pos hsec]
        exact ⟨_, rfl⟩
      · rw [if_neg hsec, if_pos (by omega)]
        exact ⟨_, rfl⟩
    · intro hsec hle
      unfold validateSecretMaterial
      rw [if_neg (not_not_intro halg),
        if_neg (by simpa [List.length_eq_zero] using hsec), if_neg (by omega)]
  · intro algs hsup
    constructor
    · unfold mkLocalHsProvider
      rw [hfind algs hsup]
      exact validateSecretForEach_ok_iff bufLen secret encoding algs
    · intro e he
      unfold mkLocalHsProvider at he
      rw [hfind algs hsup] at he
      obtain ⟨a, _, ha⟩ := validateSecretForEach_error bufLen secret encoding
        algs e he
      exact validateSecretMaterial_error_kind bufLen secret encoding a e ha
  · intro hmac alg headerPayload
    simp [localHsVerifySignature, localHsGetSignature, signatureMatches]

/-- Witness for C8: with byte length given by the character count, a 31-byte
secret is rejected for HS256 and a 32-byte secret is accepted. -/
theorem c8_secret_strength_at_construction_witness :
    (∃ msg, validateSecretMaterial (fun _ s => s.length)
        (List.replicate 31 'a') .base64 .HS256 =
      .error (.invalidKeyMaterial msg)) ∧
    validateSecretMaterial (fun _ s => s.length)
        (List.replicate 32 'a') .base64 .HS256 = .ok () := by
  constructor
  · exact ((c8_secret_strength_at_construction (fun _ s => s.length)
      (List.replicate 31 'a') .base64).1 .HS256 (by decide)).1 (by decide)
  · exact ((c8_secret_strength_at_construction (fun _ s => s.length)
      (List.replicate 32 'a') .base64).1 .HS256 (by decide)).2
      (by decide) (by decide)

/-! ### Helper lemmas about the provider pipelines -/

theorem except_ok_bind {A B : Type} (a : A) (f : A → Except JwtError B) :
    (Except.ok a : Except JwtError A) >>= f = f a := rfl

theorem except_error_bind {A B : Type} (e : JwtError)
    (f : A → Except JwtError B) :
    (Except.error e : Except JwtError A) >>= f = .error e := rfl

theorem except_throw_eq {A : Type} (e : JwtError) :
    (throw e : Except JwtError A) = .error e := rfl

theorem except_pure_eq {A : Type} (a : A) :
    (pure a : Except JwtError A) = .ok a := rfl

theorem parseOr_some {A : Type} (v : A) (e : JwtError) :
    parseOr (some v) e = .ok v := rfl

theorem parseOr_none {A : Type} (e : JwtError) :
    parseOr (none : Option A) e = .error e := rfl

theorem except_bind_error_inv {A B : Type} (x : Except JwtError A)
    (f : A → Except JwtError B) (e : JwtError)
    (h : x >>= f = .error e) :
    x = .error e ∨ ∃ a, x = .ok a ∧ f a = .error e := by
  cases x with
  | error e0 =>
    left
    have h2 : (Except.error e0 : Except JwtError B) = .error e := h
    cases h2
    rfl
  | ok a =>
    right
    exact ⟨a, rfl, h⟩

theorem parseOr_error_inv {A : Type} (o : Option A) (e0 e : JwtError)
    (h : parseOr o e0 = .error e) : e = e0 := by
  cases o with
  | none =>
    have h2 : (Except.error e0 : Except JwtError A) = .error e := h
    cases h2
    rfl
  | some v =>
    have h2 : (Except.ok v : Except JwtError A) = .error e := h
    cases h2

/-! ### Claim theorems: decode trust boundary -/

/-- A concrete provider model over the token "h.p.s": each segment parses to
itself, the header "h" parses to HS256, the payload "p" parses to the claims
materialized at T = 1700000000000, and the backend accepts exactly the
signature "s". -/
def c2model : ProviderModel JsStr Unit where
  enabledAlgorithms := [.HS256]
  encodeHeader := fun _ => ['h']
  encodePayload := fun _ => ['p']
  generateSignature := fun _ _ => ['s']
  verifySignature := fun _ _ sg => decide (sg = ['s'])
  parseSeg := fun s => some s
  headerOfJson := fun s => if s = ['h'] then some ⟨.HS256⟩ else none
  privOfJson := fun _ => some ()
  pubOfJson := fun _ =>
    some { iat := 1700000000, exp := 1700000900, nbf := 1700000000 }
  privSignSchema := fun v => some v
  pubSignSchema := fun v => some v

/-- Counterexample to C2 as stated: `decode` with a `validate` callback that
returns `false` raises `ClaimError` even though the token is well formed and
every structural parse succeeds — so `decode` is not limited to
`MalformedToken` and structural claim-shape errors. -/
theorem c2_counterexample_validate_callback :
    providerDecode c2model (.str ('h' :: '.' :: 'p' :: '.' :: ['s']))
        (some fun _ _ _ => false) =
      .error
        (.claimError "Claim validation failed via the custom validate function") := by
  rfl

/-- C2 (amended): `decode` never raises `InvalidSignature`; every error it
raises is either `MalformedToken`, a structural claim-shape `ClaimError`
("Unable to validate the private claims"), or the `ClaimError` produced when
the caller-supplied `validate` callback returns `false`. -/
theorem c2_decode_error_kinds (J P : Type) (M : ProviderModel J P)
    (token : JsInput) (validate : Option (JwtHeader → P → PublicClaims → Bool))
    (e : JwtError) (he : providerDecode M token validate = .error e) :
    (∃ msg, e = .malformedToken msg) ∨
      e = .claimError "Unable to validate the private claims" ∨
      e = .claimError "Claim validation failed via the custom validate function" := by
  unfold providerDecode at he
  rcases except_bind_error_inv _ _ _ he with h1 | ⟨d, hd, h2⟩
  · exact Or.inl (decodeJwt_error_malformed M.parseSeg token e h1)
  · rcases except_bind_error_inv _ _ _ h2 with h3 | ⟨priv, hpriv, h4⟩
    · exact Or.inr (Or.inl (parseOr_error_inv _ _ _ h3))
    · rcases except_bind_error_inv _ _ _ h4 with h5 | ⟨pub, hpub, h6⟩
      · exact Or.inr (Or.inl (parseOr_error_inv _ _ _ h5))
      · rcases except_bind_error_inv _ _ _ h6 with h7 | ⟨hdr, hhdr, h8⟩
        · exact Or.inl ⟨_, parseOr_error_inv _ _ _ h7⟩
        · cases validate with
          | none =>
            have h9 : (Except.ok
                { header := hdr, privateClaims := priv, publicClaims := pub } :
                Except JwtError (ParsedTokenResult P)) = .error e := h8
            cases h9
          | some cb =>
            have h8' : (if cb hdr priv pub = false then
                (Except.error
                  (JwtError.claimError
                    "Claim validation failed via the custom validate function") :
                  Except JwtError (ParsedTokenResult P))
              else Except.ok
                { header := hdr, privateClaims := priv, publicClaims := pub }) =
                .error e := h8
            by_cases hcb : cb hdr priv pub = false
            · refine Or.inr (Or.inr ?_)
              rw [if_pos hcb] at h8'
              cases h8'
              rfl
            · rw [if_neg hcb] at h8'
              cases h8'

/-- Witness for C2 (amended): a non-string input errors with
`MalformedToken`. -/
theorem c2_decode_error_kinds_witness :
    (∃ msg, (JwtError.malformedToken "JWT was not a string") =
      .malformedToken msg) ∨
      (JwtError.malformedToken "JWT was not a string") =
        .claimError "Unable to validate the private claims" ∨
      (JwtError.malformedToken "JWT was not a string") =
        .claimError "Claim validation failed via the custom validate function" :=
  c2_decode_error_kinds JsStr Unit c2model .nonString none
    (.malformedToken "JWT was not a string") rfl

/-! ### Claim theorems: signature over original bytes -/

/-- C6: for a well-formed token H.P.S, `decodeJwt` returns `headerPayload`
equal to the exact substring H.P of the input (never re-serialized), and
`verify` hands exactly this substring to the backend signature check: the
verify outcome is `InvalidSignature` precisely when the backend rejects the
pair (H.P, S). -/
theorem c6_signature_over_original_bytes (J P : Type) (M : ProviderModel J P)
    (h p sg : JsStr) (dh : '.' ∉ h) (dp : '.' ∉ p) (ds : '.' ∉ sg)
    (nh : h ≠ []) (np : p ≠ []) (ns : sg ≠ [])
    (jh jp : J) (ph : M.parseSeg h = some jh) (pp : M.parseSeg p = some jp)
    (hdr : JwtHeader) (hhdr : M.headerOfJson jh = some hdr)
    (hen : M.enabledAlgorithms.contains hdr.alg = true) :
    (decodeJwt M.parseSeg (.str (h ++ '.' :: (p ++ '.' :: sg))) =
      .ok { header := jh, payload := jp, signature := sg,
            headerPayload := h ++ '.' :: p }) ∧
    (M.verifySignature hdr.alg (h ++ '.' :: p) sg = false →
      ∀ skew tsO nowMs validate,
        providerVerify M (.str (h ++ '.' :: (p ++ '.' :: sg))) skew tsO nowMs
            validate =
          .error (.invalidSignature "JWT has an invalid signature")) ∧
    (M.verifySignature hdr.alg (h ++ '.' :: p) sg = true →
      ∀ skew tsO nowMs validate,
        providerVerify M (.str (h ++ '.' :: (p ++ '.' :: sg))) skew tsO nowMs
            validate ≠
          .error (.invalidSignature "JWT has an invalid signature")) := by
  have hsplit : jsSplit '.' (h ++ '.' :: (p ++ '.' :: sg)) = [h, p, sg] := by
    rw [jsSplit_append '.' h _ dh, jsSplit_append '.' p _ dp,
      jsSplit_of_not_mem '.' sg ds]
  have hdec := decodeJwt_ok M.parseSeg (h ++ '.' :: (p ++ '.' :: sg)) h p sg
    jh jp (by simp [hsplit]) nh (by simp [hsplit]) np (by simp [hsplit]) ns
    ph pp
  refine ⟨hdec, ?_, ?_⟩
  · intro hfalse skew tsO nowMs validate
    unfold providerVerify
    rw [hdec, except_ok_bind]
    simp only [hhdr, parseOr_some, except_ok_bind, verifyAlgorithmIsEnabled,
      hen, if_true, hfalse]
    rfl
  · intro htrue skew tsO nowMs validate
    unfold providerVerify
    rw [hdec, except_ok_bind]
    simp only [hhdr, parseOr_some, except_ok_bind, verifyAlgorithmIsEnabled,
      hen, if_true, htrue]
    cases hpv : M.privOfJson jp with
    | none => simp [hpv, parseOr, except_error_bind]
    | some priv =>
      cases hqv : M.pubOfJson jp with
      | none => simp [hpv, hqv, parseOr, except_ok_bind, except_error_bind]
      | some pub =>
        rcases validateTimeBasedPublicClaims_cases tsO nowMs skew
          pub.toTimeClaims with ht | ht
        · cases validate with
          | none =>
            simp [hpv, hqv, parseOr, ht, except_ok_bind, except_error_bind,
              Except.map]
          | some cb =>
            by_cases hcb : cb hdr priv pub = false <;>
              simp [hpv, hqv, parseOr, ht, hcb, except_ok_bind,
                except_error_bind, except_throw_eq, except_pure_eq, Except.map]
        · simp [hpv, hqv, parseOr, ht, except_ok_bind, except_error_bind,
            Except.map]

/-- Witness for C6: the concrete model accepts "h.p.s" exactly on the
signature segment "s" and rejects "h.p.x". -/
theorem c6_signature_over_original_bytes_witness :
    providerVerify c2model (.str ('h' :: '.' :: 'p' :: '.' :: ['x'])) .noSkew
        (some 1700000000000) 0 none =
      .error (.invalidSignature "JWT has an invalid signature") ∧
    providerVerify c2model (.str ('h' :: '.' :: 'p' :: '.' :: ['s'])) .noSkew
        (some 1700000000000) 0 none ≠
      .error (.invalidSignature "JWT has an invalid signature") := by
  constructor
  · exact (c6_signature_over_original_bytes JsStr Unit c2model ['h'] ['p'] ['x']
      (by decide) (by decide) (by decide) (by decide) (by decide) (by decide)
      ['h'] ['p'] rfl rfl ⟨.HS256⟩ (by decide) (by decide)).2.1 (by decide)
      .noSkew (some 1700000000000) 0 none
  · exact (c6_signature_over_original_bytes JsStr Unit c2model ['h'] ['p'] ['s']
      (by decide) (by decide) (by decide) (by decide) (by decide) (by decide)
      ['h'] ['p'] rfl rfl ⟨.HS256⟩ (by decide) (by decide)).2.2 (by decide)
      .noSkew (some 1700000000000) 0 none

/-! ### Claim theorems: round trip -/

/-- C1: for claims conforming to the provider's declared schemas and an
enabled algorithm, verifying a token produced by `sign` with the same
provider succeeds — given that the external codec round-trips the encoded
header and payload, the backend accepts its own signature, and the
verification reference time lies within the token's validity window — and
returns exactly the signed private claims together with the public claims
materialized by `constructPublicClaims` (iat/nbf/exp replaced by the computed
numeric seconds values). -/
theorem c1_round_trip (J P : Type) (M : ProviderModel J P)
    (alg : JwtAlgorithm) (input : PublicClaimsInput) (priv : P) (T : Int)
    (skew : SkewInput) (tsO : Option Int) (nowMs : Int)
    (pc : PublicClaims) (hpc : pc = constructPublicClaims input T)
    (eH eP sig : JsStr)
    (heH : eH = M.encodeHeader ⟨alg⟩)
    (heP : eP = M.encodePayload ⟨priv, pc⟩)
    (hsig : sig = M.generateSignature alg (eH ++ '.' :: eP))
    (hpriv : M.privSignSchema priv = some priv)
    (hpub : M.pubSignSchema pc = some pc)
    (hen : M.enabledAlgorithms.contains alg = true)
    (dH : '.' ∉ eH) (dP : '.' ∉ eP) (dS : '.' ∉ sig)
    (nH : eH ≠ []) (nP : eP ≠ []) (nS : sig ≠ [])
    (jh jp : J)
    (hph : M.parseSeg eH = some jh) (hpp : M.parseSeg eP = some jp)
    (hhj : M.headerOfJson jh = some ⟨alg⟩)
    (hpj : M.privOfJson jp = some priv)
    (hqj : M.pubOfJson jp = some pc)
    (hver : M.verifySignature alg (eH ++ '.' :: eP) sig = true)
    (hexp : Int.fdiv (tsO.getD nowMs) 1000 - computeClockSkew skew ≤ pc.exp)
    (hnbf : pc.nbf ≤ Int.fdiv (tsO.getD nowMs) 1000 + computeClockSkew skew) :
    providerSign M alg input priv T = .ok (eH ++ '.' :: (eP ++ '.' :: sig)) ∧
    providerVerify M (.str (eH ++ '.' :: (eP ++ '.' :: sig))) skew tsO nowMs
        none =
      .ok { header := ⟨alg⟩, privateClaims := priv, publicClaims := pc } := by
  subst hpc
  subst heH
  subst heP
  subst hsig
  have hmem : alg ∈ M.enabledAlgorithms := by simpa using hen
  constructor
  · unfold providerSign verifyAlgorithmIsEnabled
    simp [hen, hmem, hpriv, hpub, parseOr_some, except_ok_bind, except_pure_eq]
  · have hsplit : jsSplit '.'
        (M.encodeHeader ⟨alg⟩ ++ '.' :: (M.encodePayload ⟨priv,
            constructPublicClaims input T⟩ ++ '.' ::
          M.generateSignature alg (M.encodeHeader ⟨alg⟩ ++ '.' ::
            M.encodePayload ⟨priv, constructPublicClaims input T⟩))) =
        [M.encodeHeader ⟨alg⟩,
          M.encodePayload ⟨priv, constructPublicClaims input T⟩,
          M.generateSignature alg (M.encodeHeader ⟨alg⟩ ++ '.' ::
            M.encodePayload ⟨priv, constructPublicClaims input T⟩)] := by
      rw [jsSplit_append '.' _ _ dH, jsSplit_append '.' _ _ dP,
        jsSplit_of_not_mem '.' _ dS]
    have hdec := decodeJwt_ok M.parseSeg
      (M.encodeHeader ⟨alg⟩ ++ '.' :: (M.encodePayload ⟨priv,
          constructPublicClaims input T⟩ ++ '.' ::
        M.generateSignature alg (M.encodeHeader ⟨alg⟩ ++ '.' ::
          M.encodePayload ⟨priv, constructPublicClaims input T⟩)))
      (M.encodeHeader ⟨alg⟩)
      (M.encodePayload ⟨priv, constructPublicClaims input T⟩)
      (M.generateSignature alg (M.encodeHeader ⟨alg⟩ ++ '.' ::
        M.encodePayload ⟨priv, constructPublicClaims input T⟩))
      jh jp (by simp [hsplit]) nH (by simp [hsplit]) nP (by simp [hsplit]) nS
      hph hpp
    have htime : validateTimeBasedPublicClaims tsO nowMs skew
        (constructPublicClaims input T).toTimeClaims = .ok () := by
      rw [validateTimeBasedPublicClaims_ok_iff]
      refine ⟨rfl, ⟨_, rfl, hexp⟩, ?_⟩
      intro v hv
      cases hv
      exact hnbf
    unfold providerVerify
    rw [hdec, except_ok_bind]
    simp [hhj, parseOr_some, except_ok_bind, verifyAlgorithmIsEnabled, hen,
      hmem, hver, hpj, hqj, htime, except_pure_eq, Except.map]

/-- Witness for C1: the concrete model round-trips the token "h.p.s" signed
at T = 1700000000000 and verified at the same reference time. -/
theorem c1_round_trip_witness :
    providerSign c2model .HS256 {} () 1700000000000 =
      .ok ('h' :: '.' :: 'p' :: '.' :: ['s']) ∧
    providerVerify c2model (.str ('h' :: '.' :: 'p' :: '.' :: ['s'])) .noSkew
        (some 1700000000000) 0 none =
      .ok { header := ⟨.HS256⟩, privateClaims := (),
            publicClaims := constructPublicClaims {} 1700000000000 } :=
  c1_round_trip JsStr Unit c2model .HS256 {} () 1700000000000 .noSkew
    (some 1700000000000) 0
    (constructPublicClaims {} 1700000000000) rfl
    ['h'] ['p'] ['s'] rfl rfl rfl
    rfl (by decide) (by decide)
    (by decide) (by decide) (by decide) (by decide) (by decide) (by decide)
    ['h'] ['p'] rfl rfl (by decide) (by decide) (by decide)
    (by decide) (by decide) (by decide)
